import Mathlib

/-!
# Salary Management — deduction calculator, embedded from the source

Shallow embedding of the salary deduction engine of the repository
(`src/models/employee.model.ts`, `src/models/salary.model.ts`,
`src/services/salary.service.ts`).

Money amounts are JavaScript numbers holding integer cents; we model them
as `Int` with exact arithmetic.  `Math.floor(x / d)` on an integer dividend
and positive literal divisor is floor division, modelled as `Int.fdiv`
(round toward negative infinity, exactly `Math.floor`'s behaviour).

One representation choice: the source stores a bracket's `rate` as a
percentage that may be fractional (`20.5` for CA).  We store the exact
value as `rateTenths`, the rate in tenths of a percent (`205` for `20.5`),
so that `Math.floor((amount * rate) / 100)` becomes
`(amount * rateTenths).fdiv 1000`, which is the same exact rational floor.
A separate spec-level table (`SPEC_TAX_BRACKETS`) keeps the rate as a
literal rational and is proved to agree.
-/

namespace SalaryMgmt

/-- `export type CountryCode = 'US' | 'UK' | 'IN' | 'CA' | 'XX'`
(`src/models/employee.model.ts`). -/
inductive CountryCode where
  | US
  | UK
  | IN
  | CA
  | XX
deriving DecidableEq, Repr

/-- `interface TaxBracket { minCents; maxCents: number | null; rate }`
(`src/models/salary.model.ts`).  `maxCents = none` means no upper limit.
`rateTenths` is the source's `rate` percentage in tenths of a percent. -/
structure TaxBracket where
  minCents : Int
  maxCents : Option Int
  rateTenths : Int
deriving DecidableEq, Repr

/-- The `US` entry of `TAX_BRACKETS`: rates 10 / 12 / 22 / 24 percent. -/
def usBrackets : List TaxBracket :=
  [ ⟨0, some 1000000, 100⟩
  , ⟨1000001, some 4000000, 120⟩
  , ⟨4000001, some 8500000, 220⟩
  , ⟨8500001, none, 240⟩ ]

/-- The `UK` entry of `TAX_BRACKETS`: rates 0 / 20 / 40 percent. -/
def ukBrackets : List TaxBracket :=
  [ ⟨0, some 1250000, 0⟩
  , ⟨1250001, some 5000000, 200⟩
  , ⟨5000001, none, 400⟩ ]

/-- The `IN` entry of `TAX_BRACKETS`: rates 0 / 5 / 20 / 30 percent. -/
def inBrackets : List TaxBracket :=
  [ ⟨0, some 25000000, 0⟩
  , ⟨25000001, some 50000000, 50⟩
  , ⟨50000001, some 100000000, 200⟩
  , ⟨100000001, none, 300⟩ ]

/-- The `CA` entry of `TAX_BRACKETS`: rates 15 / 20.5 / 26 / 29 percent
(`205` tenths is the source's fractional literal `20.5`). -/
def caBrackets : List TaxBracket :=
  [ ⟨0, some 4900000, 150⟩
  , ⟨4900001, some 9800000, 205⟩
  , ⟨9800001, some 15200000, 260⟩
  , ⟨15200001, none, 290⟩ ]

/-- `TAX_BRACKETS: Record<CountryCode, TaxBracket[]>` from
`src/models/salary.model.ts`, as an association list keyed by the record's
keys in source order.  Note the sentinel `XX` is a key, bound to the empty
bracket list. -/
def TAX_BRACKETS : List (CountryCode × List TaxBracket) :=
  [ (.US, usBrackets)
  , (.UK, ukBrackets)
  , (.IN, inBrackets)
  , (.CA, caBrackets)
  , (.XX, []) ]

/-- `hasTaxDeductions = (country) => country in TAX_BRACKETS`:
key membership in the record.  Note `XX` IS a key (with an empty list),
so this is `true` for every `CountryCode`. -/
def hasTaxDeductions (country : CountryCode) : Bool :=
  (TAX_BRACKETS.lookup country).isSome

/-- `getTaxBrackets = (country) => TAX_BRACKETS[country] || []`. -/
def getTaxBrackets (country : CountryCode) : List TaxBracket :=
  (TAX_BRACKETS.lookup country).getD []

/-- `INSURANCE_RATE = 5` (percent). -/
def INSURANCE_RATE : Int := 5

/-- `INSURANCE_CAP_CENTS = 1000000`. -/
def INSURANCE_CAP_CENTS : Int := 1000000

/-- `RETIREMENT_RATE = 3` (percent). -/
def RETIREMENT_RATE : Int := 3

/-- `RETIREMENT_CAP_CENTS = 500000`. -/
def RETIREMENT_CAP_CENTS : Int := 500000

/-- The local `salaryInBracketCents` of `SalaryService.calculateTax`:
`Math.min(remaining - bracket.minCents, bracketMaxCents - bracket.minCents)`
where `bracketMaxCents = bracket.maxCents ?? Infinity`; with an infinite
upper bound the `min` is just `remaining - bracket.minCents`. -/
def salaryInBracket (bracket : TaxBracket) (remainingSalaryCents : Int) : Int :=
  match bracket.maxCents with
  | some maxCents =>
      min (remainingSalaryCents - bracket.minCents) (maxCents - bracket.minCents)
  | none => remainingSalaryCents - bracket.minCents

/-- The `for (const bracket of brackets)` loop of
`SalaryService.calculateTax`, with the two mutable locals
`remainingSalaryCents` and `totalTaxCents` passed as arguments.

For each bracket: skip it when `remaining <= bracket.minCents`; otherwise
add `Math.floor((salaryInBracketCents * rate) / 100)` to the total and
subtract `salaryInBracketCents` from `remaining`. -/
def taxLoop : List TaxBracket → Int → Int → Int
  | [], _, totalTaxCents => totalTaxCents
  | bracket :: rest, remainingSalaryCents, totalTaxCents =>
    if remainingSalaryCents ≤ bracket.minCents then
      taxLoop rest remainingSalaryCents totalTaxCents
    else
      taxLoop rest (remainingSalaryCents - salaryInBracket bracket remainingSalaryCents)
        (totalTaxCents +
          (salaryInBracket bracket remainingSalaryCents * bracket.rateTenths).fdiv 1000)

/-- `SalaryService.calculateTax(grossSalaryCents, country)`. -/
def calculateTax (grossSalaryCents : Int) (country : CountryCode) : Int :=
  if !hasTaxDeductions country then 0
  else taxLoop (getTaxBrackets country) grossSalaryCents 0

/-- `SalaryService.calculateInsurance(grossSalaryCents, country)`:
`min(Math.floor((gross * INSURANCE_RATE) / 100), INSURANCE_CAP_CENTS)`
unless `hasTaxDeductions` is false. -/
def calculateInsurance (grossSalaryCents : Int) (country : CountryCode) : Int :=
  if !hasTaxDeductions country then 0
  else min ((grossSalaryCents * INSURANCE_RATE).fdiv 100) INSURANCE_CAP_CENTS

/-- `SalaryService.calculateRetirement(grossSalaryCents, country)`:
`min(Math.floor((gross * RETIREMENT_RATE) / 100), RETIREMENT_CAP_CENTS)`
unless `hasTaxDeductions` is false. -/
def calculateRetirement (grossSalaryCents : Int) (country : CountryCode) : Int :=
  if !hasTaxDeductions country then 0
  else min ((grossSalaryCents * RETIREMENT_RATE).fdiv 100) RETIREMENT_CAP_CENTS

/-- `enum DeductionType { TAX, INSURANCE, RETIREMENT }`. -/
inductive DeductionType where
  | TAX
  | INSURANCE
  | RETIREMENT
deriving DecidableEq, Repr

/-- `interface Deduction` (`src/models/salary.model.ts`).  The `percentage`
field is a display-only IEEE-754 value (`(amount / gross) * 100`) never used
in money arithmetic; floating point is outside this embedding, so the field
is omitted. -/
structure Deduction where
  type : DeductionType
  amountCents : Int
  description : String
deriving DecidableEq, Repr

/-- `interface SalaryDetails` (`src/models/salary.model.ts`). -/
structure SalaryDetails where
  grossSalaryCents : Int
  deductions : List Deduction
  totalDeductionsCents : Int
  netSalaryCents : Int
deriving DecidableEq, Repr

/-- `SalaryService.calculateSalaryDetails(grossSalaryCents, country)`:
negative gross is normalized to 0 (`Math.max(0, grossSalaryCents)`), the
three deductions are computed on the effective salary, and the totals
are assembled. -/
def calculateSalaryDetails (grossSalaryCents : Int) (country : CountryCode) :
    SalaryDetails :=
  let effectiveSalary := max 0 grossSalaryCents
  let tax := calculateTax effectiveSalary country
  let insurance := calculateInsurance effectiveSalary country
  let retirement := calculateRetirement effectiveSalary country
  let totalDeductionsCents := tax + insurance + retirement
  let netSalaryCents := effectiveSalary - totalDeductionsCents
  { grossSalaryCents := effectiveSalary
  , deductions :=
      [ ⟨.TAX, tax, "Progressive income tax based on tax brackets"⟩
      , ⟨.INSURANCE, insurance, "Health insurance (5% of gross, max $10000/year)"⟩
      , ⟨.RETIREMENT, retirement, "Retirement contribution (3% of gross, max $5000/year)"⟩ ]
  , totalDeductionsCents := totalDeductionsCents
  , netSalaryCents := netSalaryCents }

/-- The supported countries in the sense of the spec: the country codes
with a non-empty bracket list (`US`, `UK`, `IN`, `CA`; not the sentinel
`XX`). -/
def supportedCountries : List CountryCode := [.US, .UK, .IN, .CA]

/-! ## Spec-side reference tax walk (for the refinement claim)

The definitions below follow the spec's words, not the source: a bracket
rate is an exact rational percentage (e.g. `20.5`), a bracket is processed
only when `remaining > minCents` (strict), the amount taxed in a bracket is
`min(remaining - minCents, bracketMax - minCents)` with the last bracket's
upper bound treated as infinite, each bracket contributes
`floor(amountInBracket * rate / 100)` floored independently, and after each
processed bracket `remaining` is decremented by the allocated amount. -/

/-- Spec-side bracket: same bounds, rate as an exact rational percentage. -/
structure SpecBracket where
  minCents : Int
  maxCents : Option Int
  rate : ℚ

/-- Spec-side amount taxed in a bracket:
`min(remaining - minCents, bracketMax - minCents)`, the last bracket's
upper bound treated as infinite. -/
def specAmountInBracket (b : SpecBracket) (remaining : Int) : Int :=
  match b.maxCents with
  | some maxCents => min (remaining - b.minCents) (maxCents - b.minCents)
  | none => remaining - b.minCents

/-- Spec-side reference bracket walk: visit brackets in ascending order,
process a bracket only when `remaining > minCents` (strict), contribute
`⌊amountInBracket * rate / 100⌋` per bracket, then decrement `remaining`
by the allocated amount so later inclusion tests see the reduced value. -/
def specTaxWalk : List SpecBracket → Int → Int
  | [], _ => 0
  | b :: rest, remaining =>
    if b.minCents < remaining then
      ⌊((specAmountInBracket b remaining : ℚ) * b.rate) / 100⌋ +
        specTaxWalk rest (remaining - specAmountInBracket b remaining)
    else
      specTaxWalk rest remaining

/-- Spec-side bracket tables: identical bounds, rates as the rational
percentages printed in the source comments (CA's second rate is `20.5`). -/
def SPEC_TAX_BRACKETS : CountryCode → List SpecBracket
  | .US => [ ⟨0, some 1000000, 10⟩
           , ⟨1000001, some 4000000, 12⟩
           , ⟨4000001, some 8500000, 22⟩
           , ⟨8500001, none, 24⟩ ]
  | .UK => [ ⟨0, some 1250000, 0⟩
           , ⟨1250001, some 5000000, 20⟩
           , ⟨5000001, none, 40⟩ ]
  | .IN => [ ⟨0, some 25000000, 0⟩
           , ⟨25000001, some 50000000, 5⟩
           , ⟨50000001, some 100000000, 20⟩
           , ⟨100000001, none, 30⟩ ]
  | .CA => [ ⟨0, some 4900000, 15⟩
           , ⟨4900001, some 9800000, 20.5⟩
           , ⟨9800001, some 15200000, 26⟩
           , ⟨15200001, none, 29⟩ ]
  | .XX => []

/-- Spec-side reference tax function. -/
def specCalculateTax (grossCents : Int) (country : CountryCode) : Int :=
  specTaxWalk (SPEC_TAX_BRACKETS country) grossCents

/-! ## Claim-statement helper predicates -/

/-- Well-formedness of one bracket as present in every table entry:
non-negative lower bound, non-negative rate, and an upper bound (when
present) at or above the lower bound. -/
def bracketWF (b : TaxBracket) : Bool :=
  0 ≤ b.minCents && 0 ≤ b.rateTenths &&
    (match b.maxCents with
     | some maxCents => b.minCents ≤ maxCents
     | none => true)

/-- The contiguity shape asserted by the spec: each bracket's `maxCents`
literally equals the next bracket's `minCents`. -/
def contiguousEqClaim : List TaxBracket → Bool
  | [] => true
  | [_] => true
  | b :: b' :: rest =>
    (match b.maxCents with
     | some maxCents => b'.minCents == maxCents
     | none => false) && contiguousEqClaim (b' :: rest)

/-- The contiguity shape the table actually has: each bracket's `maxCents`
is one cent below the next bracket's `minCents`. -/
def contiguousSuccClaim : List TaxBracket → Bool
  | [] => true
  | [_] => true
  | b :: b' :: rest =>
    (match b.maxCents with
     | some maxCents => b'.minCents == maxCents + 1
     | none => false) && contiguousSuccClaim (b' :: rest)

/-- The last bracket of a (non-empty) list has no upper bound. -/
def lastUnbounded (bs : List TaxBracket) : Bool :=
  match bs.getLast? with
  | some b => b.maxCents.isNone
  | none => false

/-! ## Helper lemmas -/

/-- Every `CountryCode` is a key of `TAX_BRACKETS` (including the sentinel
`XX`), so `hasTaxDeductions` is `true` for every country. -/
lemma hasTaxDeductions_true (c : CountryCode) : hasTaxDeductions c = true := by
  cases c <;> rfl

lemma getTaxBrackets_US : getTaxBrackets .US = usBrackets := rfl

lemma getTaxBrackets_UK : getTaxBrackets .UK = ukBrackets := rfl

lemma getTaxBrackets_IN : getTaxBrackets .IN = inBrackets := rfl

lemma getTaxBrackets_CA : getTaxBrackets .CA = caBrackets := rfl

lemma getTaxBrackets_XX : getTaxBrackets .XX = [] := rfl

/-- `Int.fdiv` by a positive constant is monotone. -/
lemma fdiv_pos_mono {d : Int} (hd : 0 < d) {x y : Int} (h : x ≤ y) :
    x.fdiv d ≤ y.fdiv d := by
  rw [Int.fdiv_eq_ediv _ hd.le, Int.fdiv_eq_ediv _ hd.le]
  exact Int.ediv_le_ediv hd h

/-- `Int.fdiv` of a non-negative value by a positive constant is
non-negative. -/
lemma fdiv_pos_nonneg {d : Int} (hd : 0 < d) {x : Int} (hx : 0 ≤ x) :
    0 ≤ x.fdiv d := by
  rw [Int.fdiv_eq_ediv _ hd.le]
  exact Int.ediv_nonneg hx hd.le

/-- `d * (x.fdiv d) ≤ x` for a positive divisor. -/
lemma mul_fdiv_pos_le {d : Int} (hd : 0 < d) (x : Int) : d * x.fdiv d ≤ x := by
  rw [Int.fdiv_eq_ediv _ hd.le]
  have h := Int.ediv_mul_le x hd.ne'
  linarith [mul_comm (x / d) d]

/-- The amount allocated to a processed bracket is non-negative. -/
lemma salaryInBracket_nonneg (b : TaxBracket) (r : Int)
    (hb : bracketWF b = true) (hr : b.minCents < r) :
    0 ≤ salaryInBracket b r := by
  rcases b with ⟨mn, mx, rt⟩
  cases mx <;> simp_all [salaryInBracket, bracketWF] <;> omega

/-- The amount allocated to a bracket is monotone in `remaining`
(when both values are above the bracket's lower bound). -/
lemma salaryInBracket_mono (b : TaxBracket) {r₁ r₂ : Int} (h : r₁ ≤ r₂) :
    salaryInBracket b r₁ ≤ salaryInBracket b r₂ := by
  rcases b with ⟨mn, mx, rt⟩
  cases mx <;> simp [salaryInBracket] <;> omega

/-- After processing a bracket, `remaining` stays at or above the
bracket's lower bound. -/
lemma sub_salaryInBracket_ge_min (b : TaxBracket) (r : Int)
    (hr : b.minCents < r) : b.minCents ≤ r - salaryInBracket b r := by
  rcases b with ⟨mn, mx, rt⟩
  cases mx
  all_goals simp [salaryInBracket]
  all_goals omega

/-- The decremented `remaining` is monotone in the original `remaining`. -/
lemma sub_salaryInBracket_mono (b : TaxBracket) {r₁ r₂ : Int}
    (h1 : b.minCents < r₁) (h : r₁ ≤ r₂) :
    r₁ - salaryInBracket b r₁ ≤ r₂ - salaryInBracket b r₂ := by
  rcases b with ⟨mn, mx, rt⟩
  cases mx
  all_goals simp [salaryInBracket]
  all_goals omega

/-- The tax loop is monotone in both the remaining salary and the
accumulator, over any bracket list whose brackets are well-formed. -/
lemma taxLoop_mono (bs : List TaxBracket)
    (hwf : ∀ b ∈ bs, bracketWF b = true) :
    ∀ {r₁ r₂ t₁ t₂ : Int}, r₁ ≤ r₂ → t₁ ≤ t₂ →
      taxLoop bs r₁ t₁ ≤ taxLoop bs r₂ t₂ := by
  induction bs with
  | nil =>
    intro r₁ r₂ t₁ t₂ _ ht
    simpa [taxLoop] using ht
  | cons b rest ih =>
    intro r₁ r₂ t₁ t₂ hr ht
    have hb : bracketWF b = true := hwf b (List.mem_cons_self b rest)
    have hrest : ∀ x ∈ rest, bracketWF x = true :=
      fun x hx => hwf x (List.mem_cons_of_mem b hx)
    have hrt : (0 : Int) ≤ b.rateTenths := by
      rcases b with ⟨mn, mx, rt⟩
      cases mx <;> simp_all [bracketWF]
    by_cases h1 : r₁ ≤ b.minCents
    · by_cases h2 : r₂ ≤ b.minCents
      · simp only [taxLoop, if_pos h1, if_pos h2]
        exact ih hrest hr ht
      · push_neg at h2
        simp only [taxLoop, if_pos h1, if_neg (not_le.mpr h2)]
        have hamt : 0 ≤ salaryInBracket b r₂ := salaryInBracket_nonneg b r₂ hb h2
        have hc : 0 ≤ (salaryInBracket b r₂ * b.rateTenths).fdiv 1000 :=
          fdiv_pos_nonneg (by norm_num) (mul_nonneg hamt hrt)
        exact ih hrest (le_trans h1 (sub_salaryInBracket_ge_min b r₂ h2))
          (by linarith)
    · push_neg at h1
      have h2 : b.minCents < r₂ := lt_of_lt_of_le h1 hr
      simp only [taxLoop, if_neg (not_le.mpr h1), if_neg (not_le.mpr h2)]
      have hc : (salaryInBracket b r₁ * b.rateTenths).fdiv 1000 ≤
          (salaryInBracket b r₂ * b.rateTenths).fdiv 1000 :=
        fdiv_pos_mono (by norm_num)
          (mul_le_mul_of_nonneg_right (salaryInBracket_mono b hr) hrt)
      exact ih hrest (sub_salaryInBracket_mono b h1 hr) (by linarith)

/-- Over well-formed brackets whose rates are all at most `R` tenths of a
percent, the accumulated tax is at most `R/1000` of the remaining salary:
`1000 * taxLoop bs r t ≤ R * r + 1000 * t` for `r ≥ 0`. -/
lemma taxLoop_bound (R : Int) (hR : 0 ≤ R) (bs : List TaxBracket)
    (hwf : ∀ b ∈ bs, bracketWF b = true)
    (hrate : ∀ b ∈ bs, b.rateTenths ≤ R) :
    ∀ {r t : Int}, 0 ≤ r → 1000 * taxLoop bs r t ≤ R * r + 1000 * t := by
  induction bs with
  | nil =>
    intro r t hr
    simp only [taxLoop]
    nlinarith
  | cons b rest ih =>
    intro r t hr
    have hb : bracketWF b = true := hwf b (List.mem_cons_self b rest)
    have hbR : b.rateTenths ≤ R := hrate b (List.mem_cons_self b rest)
    have hrest : ∀ x ∈ rest, bracketWF x = true :=
      fun x hx => hwf x (List.mem_cons_of_mem b hx)
    have hrestR : ∀ x ∈ rest, x.rateTenths ≤ R :=
      fun x hx => hrate x (List.mem_cons_of_mem b hx)
    by_cases h : r ≤ b.minCents
    · simp only [taxLoop, if_pos h]
      exact ih hrest hrestR hr
    · push_neg at h
      simp only [taxLoop, if_neg (not_le.mpr h)]
      have hmn : (0 : Int) ≤ b.minCents := by
        rcases b with ⟨mn, mx, rt⟩
        cases mx <;> simp_all [bracketWF]
      have hamt : 0 ≤ salaryInBracket b r := salaryInBracket_nonneg b r hb h
      have hr' : 0 ≤ r - salaryInBracket b r :=
        le_trans hmn (sub_salaryInBracket_ge_min b r h)
      have ihh := ih hrest hrestR hr'
        (t := t + (salaryInBracket b r * b.rateTenths).fdiv 1000)
      have hc1000 : 1000 * ((salaryInBracket b r * b.rateTenths).fdiv 1000) ≤
          salaryInBracket b r * b.rateTenths :=
        mul_fdiv_pos_le (by norm_num) _
      have hcR : salaryInBracket b r * b.rateTenths ≤ salaryInBracket b r * R :=
        mul_le_mul_of_nonneg_left hbR hamt
      nlinarith [ihh]

/-- The per-bracket floor is the same whether computed as
`⌊amount * (rateTenths/10) / 100⌋` over the rationals or as
`(amount * rateTenths).fdiv 1000` over the integers. -/
lemma floor_rate_div_eq_fdiv (a rT : Int) :
    ⌊((a : ℚ) * ((rT : ℚ) / 10)) / 100⌋ = (a * rT).fdiv 1000 := by
  have h : ((a : ℚ) * ((rT : ℚ) / 10)) / 100 =
      ((a * rT : Int) : ℚ) / ((1000 : ℕ) : ℚ) := by
    push_cast
    ring
  rw [h, Rat.floor_intCast_div_natCast, Int.fdiv_eq_ediv _ (by norm_num)]
  norm_num

/-- A code-table bracket and a spec-table bracket agree: same bounds, and
the spec's rational rate is the code's tenths-of-a-percent value. -/
def bracketMatches (b : TaxBracket) (s : SpecBracket) : Prop :=
  s.minCents = b.minCents ∧ s.maxCents = b.maxCents ∧
    s.rate = (b.rateTenths : ℚ) / 10

lemma specAmountInBracket_eq {b : TaxBracket} {s : SpecBracket}
    (h : bracketMatches b s) (r : Int) :
    specAmountInBracket s r = salaryInBracket b r := by
  obtain ⟨h1, h2, _⟩ := h
  cases hb : b.maxCents <;>
    simp [specAmountInBracket, salaryInBracket, h1, h2, hb]

/-- The code's tax loop computes exactly the spec's reference walk, over
any pair of pointwise-matching bracket lists. -/
lemma taxLoop_eq_specTaxWalk {bs : List TaxBracket} {ss : List SpecBracket}
    (h : List.Forall₂ bracketMatches bs ss) :
    ∀ r t : Int, taxLoop bs r t = t + specTaxWalk ss r := by
  induction h with
  | nil =>
    intro r t
    simp [taxLoop, specTaxWalk]
  | @cons b s bs' ss' hb _ ih =>
    intro r t
    obtain ⟨h1, h2, h3⟩ := hb
    by_cases hcond : r ≤ b.minCents
    · rw [taxLoop, if_pos hcond, specTaxWalk, if_neg (by omega : ¬ s.minCents < r)]
      exact ih r t
    · push_neg at hcond
      rw [taxLoop, if_neg (not_le.mpr hcond), specTaxWalk,
        if_pos (by omega : s.minCents < r),
        specAmountInBracket_eq ⟨h1, h2, h3⟩, h3, floor_rate_div_eq_fdiv, ih]
      ring

/-- Every country's embedded (tenths-of-a-percent) bracket list matches
the spec-side rational-rate bracket list bracket for bracket. -/
lemma forall₂_country (c : CountryCode) :
    List.Forall₂ bracketMatches (getTaxBrackets c) (SPEC_TAX_BRACKETS c) := by
  cases c <;>
    simp [getTaxBrackets_US, getTaxBrackets_UK, getTaxBrackets_IN,
      getTaxBrackets_CA, getTaxBrackets_XX, usBrackets, ukBrackets, inBrackets,
      caBrackets, SPEC_TAX_BRACKETS, bracketMatches, List.forall₂_cons] <;>
    norm_num

/-! ## Claims -/

/-- C1: the sentinel country `XX` (the only `CountryCode` outside
US/UK/IN/CA) does NOT get all-zero deductions: tax is 0 (its bracket list
is empty), but because `hasTaxDeductions` tests only key membership in
`TAX_BRACKETS` — and `XX` is a key — insurance and retirement are charged
at the normal 5% and 3% rates.  At the spec's own scenario
(gross 100,000 cents, country `XX`) the code deducts 5,000 + 3,000 cents
and nets 92,000 instead of 100,000. -/
theorem xx_sentinel_deductions_eval :
    calculateTax 100000 .XX = 0 ∧
    calculateInsurance 100000 .XX = 5000 ∧
    calculateRetirement 100000 .XX = 3000 ∧
    (calculateSalaryDetails 100000 .XX).netSalaryCents = 92000 := by decide

/-- C2: for every non-negative gross and every supported country,
`calculateTax` equals the spec's reference bracket walk: ascending
brackets, strict `remaining > minCents` inclusion test, amount
`min(remaining - minCents, bracketMax - minCents)` with the last bracket
unbounded, per-bracket independent flooring of `amount * rate / 100`,
and `remaining` decremented by the allocated amount after each processed
bracket. -/
theorem calculateTax_eq_spec_walk (g : Int) (c : CountryCode)
    (hg : 0 ≤ g) (hc : c ∈ supportedCountries) :
    calculateTax g c = specCalculateTax g c := by
  have h := taxLoop_eq_specTaxWalk (forall₂_country c) g 0
  simp only [calculateTax, hasTaxDeductions_true, Bool.not_true,
    Bool.false_eq_true, if_false, h, specCalculateTax, zero_add]

/-- Witness for C2 at gross 5,000,000 cents, country US. -/
theorem calculateTax_eq_spec_walk_witness :
    (0 : Int) ≤ 5000000 ∧ CountryCode.US ∈ supportedCountries ∧
      calculateTax 5000000 .US = specCalculateTax 5000000 .US :=
  ⟨by norm_num, by decide,
    calculateTax_eq_spec_walk 5000000 .US (by norm_num) (by decide)⟩

/-- C3: for every negative gross and every country code the breakdown is
identical to the gross-0 breakdown: gross is reported as 0 and tax,
insurance, retirement, total deductions and net are all 0. -/
theorem negative_gross_breakdown_eq_zero (g : Int) (c : CountryCode)
    (hg : g < 0) :
    calculateSalaryDetails g c = calculateSalaryDetails 0 c ∧
    (calculateSalaryDetails g c).grossSalaryCents = 0 ∧
    (calculateSalaryDetails g c).totalDeductionsCents = 0 ∧
    (calculateSalaryDetails g c).netSalaryCents = 0 ∧
    ∀ d ∈ (calculateSalaryDetails g c).deductions, d.amountCents = 0 := by
  have hmax : max 0 g = 0 := max_eq_left hg.le
  have heq : calculateSalaryDetails g c = calculateSalaryDetails 0 c := by
    simp only [calculateSalaryDetails, hmax, max_self]
  rw [heq]
  refine ⟨rfl, ?_⟩
  cases c <;> decide

/-- Witness for C3 at gross -1,000 cents, country US. -/
theorem negative_gross_breakdown_eq_zero_witness :
    (-1000 : Int) < 0 ∧
      calculateSalaryDetails (-1000) .US = calculateSalaryDetails 0 .US ∧
      (calculateSalaryDetails (-1000) CountryCode.US).grossSalaryCents = 0 :=
  ⟨by norm_num,
    (negative_gross_breakdown_eq_zero (-1000) .US (by norm_num)).1,
    (negative_gross_breakdown_eq_zero (-1000) .US (by norm_num)).2.1⟩

/-- C4: for every non-negative gross and supported country, the
breakdown's `totalDeductionsCents` is `tax + insurance + retirement`
(which is also the sum of the `amountCents` of its deductions), and
`netSalaryCents` is `gross - totalDeductionsCents`. -/
theorem breakdown_totals_invariant (g : Int) (c : CountryCode)
    (hg : 0 ≤ g) (hc : c ∈ supportedCountries) :
    (calculateSalaryDetails g c).totalDeductionsCents =
        calculateTax g c + calculateInsurance g c + calculateRetirement g c ∧
    (calculateSalaryDetails g c).totalDeductionsCents =
        ((calculateSalaryDetails g c).deductions.map Deduction.amountCents).sum ∧
    (calculateSalaryDetails g c).netSalaryCents =
        g - (calculateSalaryDetails g c).totalDeductionsCents := by
  have hmax : max 0 g = g := max_eq_right hg
  refine ⟨by simp [calculateSalaryDetails, hmax], ?_,
    by simp [calculateSalaryDetails, hmax]⟩
  simp [calculateSalaryDetails, hmax]
  ring

/-- Witness for C4 at gross 10,000,000 cents, country US. -/
theorem breakdown_totals_invariant_witness :
    ((0 : Int) ≤ 10000000 ∧ CountryCode.US ∈ supportedCountries) ∧
      (calculateSalaryDetails 10000000 .US).netSalaryCents =
        10000000 - (calculateSalaryDetails 10000000 .US).totalDeductionsCents :=
  ⟨⟨by norm_num, by decide⟩,
    (breakdown_totals_invariant 10000000 .US (by norm_num) (by decide)).2.2⟩

/-- C5: for every gross (of any sign) and every supported country,
insurance is `min(floor(gross * 5 / 100), 1,000,000)` and retirement is
`min(floor(gross * 3 / 100), 500,000)` — identical constants for all
countries — so insurance never exceeds 1,000,000 cents and retirement
never exceeds 500,000 cents. -/
theorem capped_deductions_formula (g : Int) (c : CountryCode)
    (hc : c ∈ supportedCountries) :
    calculateInsurance g c =
        min ((g * INSURANCE_RATE).fdiv 100) INSURANCE_CAP_CENTS ∧
    calculateRetirement g c =
        min ((g * RETIREMENT_RATE).fdiv 100) RETIREMENT_CAP_CENTS ∧
    calculateInsurance g c ≤ 1000000 ∧
    calculateRetirement g c ≤ 500000 := by
  refine ⟨by simp [calculateInsurance, hasTaxDeductions_true],
    by simp [calculateRetirement, hasTaxDeductions_true], ?_, ?_⟩
  · simp only [calculateInsurance, hasTaxDeductions_true, Bool.not_true,
      Bool.false_eq_true, if_false]
    exact min_le_right _ _
  · simp only [calculateRetirement, hasTaxDeductions_true, Bool.not_true,
      Bool.false_eq_true, if_false]
    exact min_le_right _ _

/-- Witness for C5 at gross 30,000,000 cents, country US (insurance
capped). -/
theorem capped_deductions_formula_witness :
    CountryCode.US ∈ supportedCountries ∧
      calculateInsurance 30000000 .US ≤ 1000000 :=
  ⟨by decide, (capped_deductions_formula 30000000 .US (by decide)).2.2.1⟩

/-- C6: for every supported country, `calculateTax` is monotone in the
gross: `0 ≤ g₁ ≤ g₂` implies `calculateTax g₁ ≤ calculateTax g₂`. -/
theorem calculateTax_monotone (c : CountryCode) (hc : c ∈ supportedCountries)
    (g₁ g₂ : Int) (h0 : 0 ≤ g₁) (h12 : g₁ ≤ g₂) :
    calculateTax g₁ c ≤ calculateTax g₂ c := by
  have hwf : ∀ b ∈ getTaxBrackets c, bracketWF b = true := by
    cases c <;> decide
  simp only [calculateTax, hasTaxDeductions_true, Bool.not_true,
    Bool.false_eq_true, if_false]
  exact taxLoop_mono _ hwf h12 le_rfl

/-- Witness for C6 at gross 1,000,000 ≤ 5,000,000 cents, country US. -/
theorem calculateTax_monotone_witness :
    (CountryCode.US ∈ supportedCountries ∧ (0 : Int) ≤ 1000000 ∧
        (1000000 : Int) ≤ 5000000) ∧
      calculateTax 1000000 .US ≤ calculateTax 5000000 .US :=
  ⟨⟨by decide, by norm_num, by norm_num⟩,
    calculateTax_monotone .US (by decide) 1000000 5000000 (by norm_num)
      (by norm_num)⟩

/-- C7: for every non-negative gross and every country code, total
deductions never exceed the gross, so the net salary is non-negative. -/
theorem net_salary_nonneg (g : Int) (c : CountryCode) (hg : 0 ≤ g) :
    (calculateSalaryDetails g c).totalDeductionsCents ≤ g ∧
    0 ≤ (calculateSalaryDetails g c).netSalaryCents := by
  have hmax : max 0 g = g := max_eq_right hg
  have hwf : ∀ b ∈ getTaxBrackets c, bracketWF b = true := by
    cases c <;> decide
  have hrate : ∀ b ∈ getTaxBrackets c, b.rateTenths ≤ 400 := by
    cases c <;> decide
  have htax : 1000 * calculateTax g c ≤ 400 * g := by
    simp only [calculateTax, hasTaxDeductions_true, Bool.not_true,
      Bool.false_eq_true, if_false]
    have h := taxLoop_bound 400 (by norm_num) _ hwf hrate (r := g) (t := 0) hg
    linarith
  have hins : 1000 * calculateInsurance g c ≤ 50 * g := by
    simp only [calculateInsurance, hasTaxDeductions_true, Bool.not_true,
      Bool.false_eq_true, if_false, INSURANCE_RATE]
    have h1 : 100 * ((g * 5).fdiv 100) ≤ g * 5 := mul_fdiv_pos_le (by norm_num) _
    have h2 : min ((g * 5).fdiv 100) INSURANCE_CAP_CENTS ≤ (g * 5).fdiv 100 :=
      min_le_left _ _
    linarith
  have hret : 1000 * calculateRetirement g c ≤ 30 * g := by
    simp only [calculateRetirement, hasTaxDeductions_true, Bool.not_true,
      Bool.false_eq_true, if_false, RETIREMENT_RATE]
    have h1 : 100 * ((g * 3).fdiv 100) ≤ g * 3 := mul_fdiv_pos_le (by norm_num) _
    have h2 : min ((g * 3).fdiv 100) RETIREMENT_CAP_CENTS ≤ (g * 3).fdiv 100 :=
      min_le_left _ _
    linarith
  have htot : (calculateSalaryDetails g c).totalDeductionsCents =
      calculateTax g c + calculateInsurance g c + calculateRetirement g c := by
    simp [calculateSalaryDetails, hmax]
  have hnet : (calculateSalaryDetails g c).netSalaryCents =
      g - (calculateSalaryDetails g c).totalDeductionsCents := by
    simp [calculateSalaryDetails, hmax, htot]
  constructor
  · rw [htot]; linarith
  · rw [hnet, htot]; linarith

/-- Witness for C7 at gross 10,000,000 cents, country US. -/
theorem net_salary_nonneg_witness :
    (0 : Int) ≤ 10000000 ∧
      0 ≤ (calculateSalaryDetails 10000000 CountryCode.US).netSalaryCents :=
  ⟨by norm_num, (net_salary_nonneg 10000000 .US (by norm_num)).2⟩

/-- C8 counterexample: the claim as stated — each bracket's `minCents`
equals the previous bracket's `maxCents` — fails on the US table, whose
second bracket starts at 1,000,001 while the first ends at 1,000,000. -/
theorem bracket_contiguity_counterexample :
    contiguousEqClaim (getTaxBrackets .US) = false := by decide

/-- C8 (amended): for every supported country's bracket list, each
bracket's `minCents` equals the previous bracket's `maxCents` plus one
cent (contiguous over the integers, non-overlapping, ascending), and the
last bracket's upper bound is unbounded (`null`). -/
theorem bracket_contiguity_succ (c : CountryCode)
    (hc : c ∈ supportedCountries) :
    contiguousSuccClaim (getTaxBrackets c) = true ∧
    lastUnbounded (getTaxBrackets c) = true := by
  simp only [supportedCountries, List.mem_cons, List.mem_singleton,
    List.not_mem_nil, or_false] at hc
  rcases hc with rfl | rfl | rfl | rfl <;> decide

/-- Witness for the amended C8 at country US. -/
theorem bracket_contiguity_succ_witness :
    CountryCode.US ∈ supportedCountries ∧
      (contiguousSuccClaim (getTaxBrackets .US) = true ∧
       lastUnbounded (getTaxBrackets .US) = true) :=
  ⟨by decide, bracket_contiguity_succ .US (by decide)⟩

/-- C9: the calculator functions are total: for every integer gross
(positive, zero or negative) and every `CountryCode`, the bracket-table
lookup — the only potentially partial operation in the calculator —
succeeds, and `calculateTax`, `calculateInsurance`, `calculateRetirement`
and `calculateSalaryDetails` each return a value; there is no reachable
error branch. -/
theorem calculator_total (g : Int) (c : CountryCode) :
    (TAX_BRACKETS.lookup c).isSome = true ∧
    ∃ t i r d, calculateTax g c = t ∧ calculateInsurance g c = i ∧
      calculateRetirement g c = r ∧ calculateSalaryDetails g c = d :=
  ⟨hasTaxDeductions_true c, _, _, _, _, rfl, rfl, rfl, rfl⟩

/-- C10: called directly with a negative gross and a supported country,
`calculateInsurance` and `calculateRetirement` return the negative value
`floor(gross * rate / 100)` (floor toward negative infinity), not 0;
zero-normalization of negative gross happens only inside
`calculateSalaryDetails`, whose total deductions are 0 at the same
input. -/
theorem direct_negative_gross_deductions (g : Int) (c : CountryCode)
    (hg : g < 0) (hc : c ∈ supportedCountries) :
    calculateInsurance g c = (g * INSURANCE_RATE).fdiv 100 ∧
    calculateInsurance g c < 0 ∧
    calculateRetirement g c = (g * RETIREMENT_RATE).fdiv 100 ∧
    calculateRetirement g c < 0 ∧
    (calculateSalaryDetails g c).totalDeductionsCents = 0 := by
  have h5 : (g * INSURANCE_RATE).fdiv 100 ≤ -1 := by
    have h : g * INSURANCE_RATE ≤ -5 := by
      simp only [INSURANCE_RATE]
      nlinarith
    calc (g * INSURANCE_RATE).fdiv 100 ≤ (-5 : Int).fdiv 100 :=
          fdiv_pos_mono (by norm_num) h
      _ = -1 := by decide
  have h3 : (g * RETIREMENT_RATE).fdiv 100 ≤ -1 := by
    have h : g * RETIREMENT_RATE ≤ -3 := by
      simp only [RETIREMENT_RATE]
      nlinarith
    calc (g * RETIREMENT_RATE).fdiv 100 ≤ (-3 : Int).fdiv 100 :=
          fdiv_pos_mono (by norm_num) h
      _ = -1 := by decide
  have hmax : max 0 g = 0 := max_eq_left hg.le
  refine ⟨?_, ?_, ?_, ?_, ?_⟩
  · simp only [calculateInsurance, hasTaxDeductions_true, Bool.not_true,
      Bool.false_eq_true, if_false]
    exact min_eq_left (by simp only [INSURANCE_CAP_CENTS]; omega)
  · simp only [calculateInsurance, hasTaxDeductions_true, Bool.not_true,
      Bool.false_eq_true, if_false]
    have := min_le_left ((g * INSURANCE_RATE).fdiv 100) INSURANCE_CAP_CENTS
    omega
  · simp only [calculateRetirement, hasTaxDeductions_true, Bool.not_true,
      Bool.false_eq_true, if_false]
    exact min_eq_left (by simp only [RETIREMENT_CAP_CENTS]; omega)
  · simp only [calculateRetirement, hasTaxDeductions_true, Bool.not_true,
      Bool.false_eq_true, if_false]
    have := min_le_left ((g * RETIREMENT_RATE).fdiv 100) RETIREMENT_CAP_CENTS
    omega
  · have heq : calculateSalaryDetails g c = calculateSalaryDetails 0 c := by
      simp only [calculateSalaryDetails, hmax, max_self]
    rw [heq]
    simp only [supportedCountries, List.mem_cons, List.mem_singleton,
      List.not_mem_nil, or_false] at hc
    rcases hc with rfl | rfl | rfl | rfl <;> decide

/-- Witness for C10 at gross -1,000 cents, country US: the direct calls
return -50 and -30 cents. -/
theorem direct_negative_gross_deductions_witness :
    ((-1000 : Int) < 0 ∧ CountryCode.US ∈ supportedCountries) ∧
      calculateInsurance (-1000) .US = ((-1000 : Int) * INSURANCE_RATE).fdiv 100 ∧
      calculateInsurance (-1000) CountryCode.US < 0 :=
  ⟨⟨by norm_num, by decide⟩,
    (direct_negative_gross_deductions (-1000) .US (by norm_num) (by decide)).1,
    (direct_negative_gross_deductions (-1000) .US (by norm_num) (by decide)).2.1⟩

end SalaryMgmt
